import Mathlib

/-!
Verification of the experiment lifecycle orchestrator
(`src/go/web/common.go`: `startExperiment`, `stopExperiment`).

The two Go functions are embedded as pure Lean functions over
  * a per-experiment-name system state (`Sys`): the lock-table entry for the
    name plus the registry entries `cancelers[name]` and `waiters[name]`;
  * an environment (`StartEnv` / `StopEnv`) recording the results the external
    collaborators (`experiment.Start`, `experiment.Get`, `vm.Count`, `vm.List`,
    `mm.GetLaunchProgress`, `app.PeriodicallyRunApps`, `marshaler.Marshal`)
    return during the call.
Each call yields an `Outcome` (body, classified web error, or a nil-pointer
panic), the updated state, and a trace of the observable effects
(broadcast events, registry mutations, cancellation-handle invocations,
the wait-group drain, sleeps, log lines, the domain stop call).

Concurrency note: the body of `startExperiment` spawns a goroutine that runs
`experiment.Start` and sends a terminal result over a channel while the main
loop polls progress in a `select`/`default` loop.  The embedding
sequentialises this: `StartEnv.polls` is the sequence of
`mm.GetLaunchProgress` results the main loop observes before the terminal
result becomes available on the channel, after which the terminal branch
runs.  The auxiliary log-drainer and delayed-error goroutines only write log
lines and per-VM error broadcasts on their own timeline after the call may
already have returned; they touch neither the registry maps, the lock, nor
the events this file reasons about, so they are not part of the call trace.
-/

deriving instance DecidableEq for Except

namespace Phenix

/-- Error values coming back from collaborators (Go `error`). -/
abbrev Err := String

/-- The experiment value a `*types.Experiment` points at. -/
abbrev ExpData := String

/-- One VM entry as returned by `vm.List`. -/
abbrev VMData := String

/-- A marshalled response body (Go `[]byte`). -/
abbrev Body := String

/-- Broadcast messages sent via `broker.Broadcast`: resource status plus the
payload that matters for the claims (the progress fraction, or the marshalled
body carried by the terminal success event). -/
inductive BMsg where
  | starting
  | progress (p : ℚ)
  | errorStarting
  | start (body : Body)
  | stopping
  | errorStopping
  | stop (body : Body)
  deriving DecidableEq, Repr

/-- Observable effects of one `startExperiment` / `stopExperiment` call. -/
inductive Event where
  /-- `broker.Broadcast(...)` -/
  | broadcast (m : BMsg)
  /-- invocation of a registered `context.CancelFunc` (identified by handle id) -/
  | cancelCalled (h : Nat)
  /-- `wg.Wait()` returned: the wait group for the name reached zero -/
  | awaitDrain
  /-- `delete(cancelers, name)` -/
  | clearCancelers
  /-- `delete(waiters, name)` -/
  | clearWaiters
  /-- `experiment.Start(...)` invoked (in the worker goroutine) -/
  | domainStart
  /-- `experiment.Stop(name)` invoked -/
  | domainStop
  /-- one call to `mm.GetLaunchProgress(name, count)` -/
  | poll
  /-- `time.Sleep(n * time.Second)` -/
  | sleep (units : Nat)
  /-- `log.Error("getting progress for experiment ...")` -/
  | logPollErr
  /-- `log.Error("listing VMs in experiment ...")` -/
  | logListErr
  /-- `fmt.Printf("Error scheduling experiment apps to run periodically...")` -/
  | logSchedErr
  /-- deferred `cache.UnlockExperiment(name)` ran -/
  | unlock
  deriving DecidableEq, Repr

/-- Lock-table entry for one experiment name. -/
inductive LockState where
  | free
  | lockedStarting
  | lockedStopping
  deriving DecidableEq, Repr

/-- Modelled from the spec: the Lock Table (`web/cache` package, whose source
is not under `src/`; only its callers are).  Spec §4.1: `acquire(name,
intent) -> ok | Conflict` — fails with `Conflict` if any lock (same or
different intent) is already held for `name`. -/
def lockAcquire (s : LockState) (intent : LockState) : Except Unit LockState :=
  match s with
  | .free => .ok intent
  | _ => .error ()

/-- Modelled from the spec: `release(name)` — idempotent; clears any held
lock for `name` regardless of intent (spec §4.1). -/
def lockRelease (_ : LockState) : LockState := .free

/-- Per-name slice of the process-wide shared state: the lock-table entry,
`cancelers[name]` (`none` = key absent, `some hs` = registered cancel-handle
ids in registration order) and `waiters[name]` (`none` = key absent,
`some n` = a `sync.WaitGroup` currently tracking `n` background tasks). -/
structure Sys where
  lock : LockState
  cancels : Option (List Nat)
  waiters : Option Nat
  deriving DecidableEq, Repr

/-- The cancel-handle ids registered for the name (empty when the key is
absent, matching Go's nil-slice map read). -/
def registeredCancels (sys : Sys) : List Nat := sys.cancels.getD []

/-- A `weberror.WebError`: the wrapped inner error, the formatted context
message, and the HTTP status set via `SetStatus`. -/
structure WebErr where
  inner : Err
  msg : String
  status : Nat
  deriving DecidableEq, Repr

/-- What a call returns: a body with nil error, a nil body with a web error,
or a nil-pointer dereference panic. -/
inductive Outcome where
  | ok (body : Body)
  | err (e : WebErr)
  | panicked
  deriving DecidableEq, Repr

/-- `true` iff the outcome is an error whose status is 409 Conflict. -/
def Outcome.isConflict : Outcome → Bool
  | .err e => e.status == 409
  | _ => false

/-- Result of one call: outcome, post-state, trace of observable effects. -/
structure RunResult where
  out : Outcome
  sys : Sys
  tr : List Event
  deriving DecidableEq, Repr

/-- Collaborator results observed during one `startExperiment` call. -/
structure StartEnv where
  /-- result of `experiment.Start(ctx, ...)` in the worker goroutine -/
  domainStart : Option Err
  /-- pointer returned by `experiment.Get(name)` (sent over `status`) -/
  expPtr : Option ExpData
  /-- error returned by `experiment.Get(name)` -/
  expErr : Option Err
  /-- `vm.Count(name)` (its error is discarded by the code: `count, _ :=`) -/
  countVMs : Nat
  /-- successive `mm.GetLaunchProgress(name, count)` results the main loop
  observes before the terminal result is available on the `status` channel -/
  polls : List (Except Err ℚ)
  /-- result of `app.PeriodicallyRunApps(ctx, &wg, s.exp)` -/
  schedErr : Option Err
  /-- tasks the scheduler registered on the wait group when it succeeded -/
  schedCount : Nat
  /-- list returned by `vm.List(name)` -/
  vms : List VMData
  /-- error returned by `vm.List(name)` -/
  vmsErr : Option Err
  /-- `marshaler.Marshal(util.ExperimentToProtobuf(exp, "", vms))` -/
  marshal : ExpData → List VMData → Except Err Body
  /-- handle id of the worker goroutine's `context.CancelFunc` -/
  gCancelId : Nat
  /-- handle id of the periodic-runner's `context.CancelFunc` -/
  rCancelId : Nat

/-- Collaborator results observed during one `stopExperiment` call. -/
structure StopEnv where
  /-- result of `experiment.Stop(name)` -/
  domainStop : Option Err
  /-- pointer returned by `experiment.Get(name)` -/
  expPtr : Option ExpData
  /-- error returned by `experiment.Get(name)` (the code's branch is empty) -/
  expErr : Option Err
  /-- list returned by `vm.List(name)` -/
  vms : List VMData
  /-- error returned by `vm.List(name)` (the code's branch is empty) -/
  vmsErr : Option Err
  /-- `marshaler.Marshal(util.ExperimentToProtobuf(*exp, "", vms))` -/
  marshal : ExpData → List VMData → Except Err Body

/-- The progress-reporter loop: the `default` branch of the `select` in
`startExperiment` (common.go lines 167-193), run once per entry of `polls`.
A failing probe logs and `continue`s (no broadcast, no sleep); a successful
probe raises the running value when it exceeds it (`if p > progress`),
broadcasts the value, and sleeps 2 seconds. -/
def pollLoop (cur : ℚ) : List (Except Err ℚ) → List Event
  | [] => []
  | .error _ :: rest => .poll :: .logPollErr :: pollLoop cur rest
  | .ok p :: rest =>
      let c := if cur < p then p else cur
      .poll :: .broadcast (.progress c) :: .sleep 2 :: pollLoop c rest

/-- Embedding of `startExperiment` (common.go lines 32-195). -/
def startExperiment (name : String) (sys : Sys) (env : StartEnv) : RunResult :=
  match lockAcquire sys.lock .lockedStarting with
  | .error _ =>
      { out := .err { inner := "experiment locked",
                      msg := "unable to lock experiment " ++ name ++ " for starting",
                      status := 409 },
        sys := sys, tr := [] }
  | .ok lk =>
    -- `defer cache.UnlockExperiment(name)`: every branch below ends with
    -- `lockRelease lk` as the final lock state and an `unlock` trace event.
    -- goroutine: `cancelers[name] = append(cancelers[name], cancel)`
    let cancels1 := registeredCancels sys ++ [env.gCancelId]
    let tr1 := [Event.broadcast .starting, Event.domainStart]
               ++ pollLoop 0 env.polls
    match env.domainStart with
    | some e =>
        -- goroutine: `cancel(); delete(cancelers, name); status <- {nil, err}`
        -- main loop: `s.err != nil` branch
        { out := .err { inner := e,
                        msg := "unable to start experiment " ++ name,
                        status := 400 },
          sys := { lock := lockRelease lk, cancels := none, waiters := sys.waiters },
          tr := tr1 ++ [Event.cancelCalled env.gCancelId, Event.clearCancelers,
                        Event.broadcast .errorStarting, Event.unlock] }
    | none =>
      match env.expErr with
      | some e =>
          -- goroutine sent `{exp, err}` from `experiment.Get`; `s.err != nil`
          { out := .err { inner := e,
                          msg := "unable to start experiment " ++ name,
                          status := 400 },
            sys := { lock := lockRelease lk, cancels := some cancels1,
                     waiters := sys.waiters },
            tr := tr1 ++ [Event.broadcast .errorStarting, Event.unlock] }
      | none =>
        -- success branch: register the periodic-runner context and wait group
        let cancels2 := cancels1 ++ [env.rCancelId]
        let sys2 : Sys :=
          match env.schedErr with
          | some _ => { lock := lockRelease lk, cancels := none, waiters := none }
          | none => { lock := lockRelease lk, cancels := some cancels2,
                      waiters := some env.schedCount }
        let trSched : List Event :=
          match env.schedErr with
          | some _ => [Event.cancelCalled env.rCancelId, Event.clearCancelers,
                       Event.clearWaiters, Event.logSchedErr]
          | none => []
        let trList : List Event :=
          match env.vmsErr with
          | some _ => [Event.logListErr]
          | none => []
        match env.expPtr with
        | none =>
            -- `*s.exp` with a nil pointer and nil error
            { out := .panicked, sys := sys2,
              tr := tr1 ++ trSched ++ trList ++ [Event.unlock] }
        | some exp =>
          match env.marshal exp env.vms with
          | .error e =>
              { out := .err { inner := e,
                              msg := "unable to start experiment " ++ name,
                              status := 500 },
                sys := sys2, tr := tr1 ++ trSched ++ trList ++ [Event.unlock] }
          | .ok b =>
              { out := .ok b, sys := sys2,
                tr := tr1 ++ trSched ++ trList
                      ++ [Event.broadcast (.start b), Event.unlock] }

/-- Embedding of `stopExperiment` (common.go lines 197-258). -/
def stopExperiment (name : String) (sys : Sys) (env : StopEnv) : RunResult :=
  match lockAcquire sys.lock .lockedStopping with
  | .error _ =>
      { out := .err { inner := "experiment locked",
                      msg := "unable to lock experiment " ++ name ++ " for stopping",
                      status := 409 },
        sys := sys, tr := [] }
  | .ok lk =>
    -- `if cancels, ok := cancelers[name]; ok { ...cancel()...; wg.Wait() }`
    let trCancel : List Event :=
      match sys.cancels with
      | some hs =>
          hs.map Event.cancelCalled
          ++ (match sys.waiters with
              | some _ => [Event.awaitDrain]
              | none => [])
      | none => []
    -- `delete(cancelers, name); delete(waiters, name)`
    let sys1 : Sys := { lock := lockRelease lk, cancels := none, waiters := none }
    let tr1 := Event.broadcast .stopping :: trCancel
               ++ [Event.clearCancelers, Event.clearWaiters, Event.domainStop]
    match env.domainStop with
    | some e =>
        { out := .err { inner := e,
                        msg := "unable to stop experiment " ++ name,
                        status := 400 },
          sys := sys1,
          tr := tr1 ++ [Event.broadcast .errorStopping, Event.unlock] }
    | none =>
      -- `exp, err := experiment.Get(name); if err != nil { /* TODO */ }`
      -- `vms, err := vm.List(name); if err != nil { /* TODO */ }`
      match env.expPtr with
      | none =>
          -- `*exp` dereferences the nil pointer
          { out := .panicked, sys := sys1, tr := tr1 ++ [Event.unlock] }
      | some exp =>
        match env.marshal exp env.vms with
        | .error e =>
            { out := .err { inner := e,
                            msg := "unable to stop experiment " ++ name,
                            status := 500 },
              sys := sys1, tr := tr1 ++ [Event.unlock] }
        | .ok b =>
            { out := .ok b, sys := sys1,
              tr := tr1 ++ [Event.broadcast (.stop b), Event.unlock] }

/-! ### Trace analysis -/

/-- The sequence of fractions carried by the `progress` broadcasts of a
trace, in emission order. -/
def progressValues (tr : List Event) : List ℚ :=
  tr.filterMap fun e =>
    match e with
    | .broadcast (.progress p) => some p
    | _ => none

/-- The successful probe readings of a poll-result sequence, in order. -/
def pollSuccesses (polls : List (Except Err ℚ)) : List ℚ :=
  polls.filterMap fun r =>
    match r with
    | .ok p => some p
    | .error _ => none

/-- Running maximum of a list, seeded with `cur`: what the `progress`
variable of the loop holds at each successful poll. -/
def runMax (cur : ℚ) : List ℚ → List ℚ
  | [] => []
  | p :: r => max cur p :: runMax (max cur p) r

/-- Phases of the `Start`-call broadcasts: `starting` = 0, `progress` = 1,
terminal (`start`/`errorStarting`) = 2; other events are ignored. -/
def startPhase : Event → Option Nat
  | .broadcast .starting => some 0
  | .broadcast (.progress _) => some 1
  | .broadcast .errorStarting => some 2
  | .broadcast (.start _) => some 2
  | _ => none

/-- Phases of the `Stop`-call teardown steps: handle cancellation = 0,
wait-group drain = 1, registry-entry removal = 2, domain stop = 3; other
events are ignored. -/
def stopPhase : Event → Option Nat
  | .cancelCalled _ => some 0
  | .awaitDrain => some 1
  | .clearCancelers => some 2
  | .clearWaiters => some 2
  | .domainStop => some 3
  | _ => none

/-- Worker for `interPollSleeps`: `seen` records whether a poll has occurred
yet, `acc` the sleep units accumulated since the previous poll. -/
def ipsGo : List Event → Bool → Nat → List Nat
  | [], _, _ => []
  | .poll :: r, false, _ => ipsGo r true 0
  | .poll :: r, true, acc => acc :: ipsGo r true 0
  | .sleep n :: r, true, acc => ipsGo r true (acc + n)
  | _ :: r, seen, acc => ipsGo r seen acc

/-- For each pair of consecutive `poll` events of a trace, the total sleep
units that elapse between them. -/
def interPollSleeps (tr : List Event) : List Nat := ipsGo tr false 0

/-- The inter-poll sleep the loop actually produces for a given poll-result
sequence: 2 units after a successful probe, none after a failing one. -/
def expGaps (polls : List (Except Err ℚ)) : List Nat :=
  polls.dropLast.map fun r =>
    match r with
    | .ok _ => 2
    | .error _ => 0

/-! ### Lemmas about the progress-reporter loop -/

theorem ite_gt_eq_max (cur p : ℚ) : (if cur < p then p else cur) = max cur p := by
  rcases le_or_lt p cur with h | h
  · simp [not_lt.mpr h, max_eq_left h]
  · simp [h, max_eq_right h.le]

theorem progressValues_pollLoop (cur : ℚ) (polls : List (Except Err ℚ)) :
    progressValues (pollLoop cur polls) = runMax cur (pollSuccesses polls) := by
  induction polls generalizing cur with
  | nil => simp [pollLoop, progressValues, pollSuccesses, runMax]
  | cons x rest ih =>
      cases x with
      | error e => simpa [pollLoop, progressValues, pollSuccesses] using ih cur
      | ok p =>
          simp [pollLoop, progressValues, pollSuccesses, runMax, ite_gt_eq_max]
          simpa [progressValues, pollSuccesses] using ih (max cur p)

theorem le_of_mem_runMax (cur : ℚ) (l : List ℚ) :
    ∀ x ∈ runMax cur l, cur ≤ x := by
  induction l generalizing cur with
  | nil => simp [runMax]
  | cons p r ih =>
      intro x hx
      rcases List.mem_cons.mp hx with hx | hx
      · exact hx ▸ le_max_left cur p
      · exact le_trans (le_max_left cur p) (ih (max cur p) x hx)

theorem runMax_sorted (cur : ℚ) (l : List ℚ) :
    (runMax cur l).Sorted (· ≤ ·) := by
  induction l generalizing cur with
  | nil => simp [runMax]
  | cons p r ih =>
      rw [runMax, List.sorted_cons]
      exact ⟨le_of_mem_runMax (max cur p) r, ih (max cur p)⟩

theorem runMax_bounds (cur : ℚ) (l : List ℚ) (lo hi : ℚ)
    (hc : lo ≤ cur ∧ cur ≤ hi) (hl : ∀ p ∈ l, lo ≤ p ∧ p ≤ hi) :
    ∀ v ∈ runMax cur l, lo ≤ v ∧ v ≤ hi := by
  induction l generalizing cur with
  | nil => simp [runMax]
  | cons p r ih =>
      intro v hv
      have hp := hl p (by simp)
      have hm : lo ≤ max cur p ∧ max cur p ≤ hi :=
        ⟨le_trans hc.1 (le_max_left cur p), max_le hc.2 hp.2⟩
      rcases List.mem_cons.mp hv with hv | hv
      · exact hv ▸ hm
      · exact ih (max cur p) hm (fun q hq => hl q (by simp [hq])) v hv

theorem runMax_get? (c : ℚ) (s : List ℚ) (i : Nat) (v : ℚ)
    (h : (runMax c s).get? i = some v) :
    v = (s.take (i + 1)).foldl max c := by
  induction s generalizing c i with
  | nil => simp [runMax] at h
  | cons p r ih =>
      cases i with
      | zero =>
          simp [runMax] at h
          simp [List.take, List.foldl, h]
      | succ i =>
          rw [runMax, List.get?] at h
          have := ih (max c p) i h
          simpa [List.take, List.foldl] using this

/-- Everything the poll loop emits is a poll, a poll-error log line, a
progress broadcast, or a 2-second sleep. -/
theorem mem_pollLoop (cur : ℚ) (polls : List (Except Err ℚ)) :
    ∀ e ∈ pollLoop cur polls,
      e = .poll ∨ e = .logPollErr ∨ (∃ p, e = .broadcast (.progress p)) ∨
      e = .sleep 2 := by
  induction polls generalizing cur with
  | nil => simp [pollLoop]
  | cons x rest ih =>
      cases x with
      | error er =>
          intro e he
          rw [pollLoop] at he
          rcases List.mem_cons.mp he with he | he
          · exact Or.inl he
          rcases List.mem_cons.mp he with he | he
          · exact Or.inr (Or.inl he)
          · exact ih cur e he
      | ok p =>
          intro e he
          rw [pollLoop] at he
          rcases List.mem_cons.mp he with he | he
          · exact Or.inl he
          rcases List.mem_cons.mp he with he | he
          · exact Or.inr (Or.inr (Or.inl ⟨_, he⟩))
          rcases List.mem_cons.mp he with he | he
          · exact Or.inr (Or.inr (Or.inr he))
          · exact ih _ e he

/-! ### Concrete fixtures (used by witnesses) -/

/-- A concrete serializer: marshalling always succeeds. -/
def mshOk : ExpData → List VMData → Except Err Body :=
  fun e vs => .ok (e ++ "#" ++ toString vs.length)

/-- System state with no lock held and an empty registry. -/
def sysFree : Sys := { lock := .free, cancels := none, waiters := none }

/-- System state after a successful start: goroutine handle 3 and periodic
runner handle 5 registered, wait group tracking one task. -/
def sysRunning : Sys := { lock := .free, cancels := some [3, 5], waiters := some 1 }

/-- A start in which every collaborator succeeds; the probe reads 3/10, then
fails once, then reads 7/10. -/
def envStartOk : StartEnv :=
  { domainStart := none, expPtr := some "exp1data", expErr := none, countVMs := 3,
    polls := [.ok (3/10), .error "probe down", .ok (7/10)],
    schedErr := none, schedCount := 1,
    vms := ["vm1", "vm2", "vm3"], vmsErr := none, marshal := mshOk,
    gCancelId := 3, rCancelId := 5 }

/-- A start whose domain operation fails. -/
def envStartFail : StartEnv :=
  { envStartOk with domainStart := some "already running" }

/-- A stop in which every collaborator succeeds. -/
def envStopOk : StopEnv :=
  { domainStop := none, expPtr := some "exp1data", expErr := none,
    vms := ["vm1"], vmsErr := none, marshal := mshOk }

/-- A stop whose domain operation fails. -/
def envStopFail : StopEnv := { envStopOk with domainStop := some "teardown failed" }

/-! ### C2: mutual exclusion -/

/-- C2: a Start or Stop issued while the lock for the name is held (either
intent) returns a 409 Conflict error with a nil body, emits no broadcast at
all, and leaves the state untouched; and once an operation that did acquire
the lock returns (any outcome), a subsequent Start or Stop is not rejected
with Conflict. -/
theorem startStop_conflict_when_locked
    (name : String) (sys : Sys) (env env₂ : StartEnv) (envS envS₂ : StopEnv) :
    (sys.lock ≠ .free →
      ((startExperiment name sys env).out =
          .err { inner := "experiment locked",
                 msg := "unable to lock experiment " ++ name ++ " for starting",
                 status := 409 }
        ∧ (startExperiment name sys env).tr = []
        ∧ (startExperiment name sys env).sys = sys)
      ∧ ((stopExperiment name sys envS).out =
          .err { inner := "experiment locked",
                 msg := "unable to lock experiment " ++ name ++ " for stopping",
                 status := 409 }
        ∧ (stopExperiment name sys envS).tr = []
        ∧ (stopExperiment name sys envS).sys = sys))
    ∧ (sys.lock = .free →
      ((startExperiment name ((startExperiment name sys env).sys) env₂).out.isConflict = false
        ∧ (stopExperiment name ((startExperiment name sys env).sys) envS₂).out.isConflict = false
        ∧ (startExperiment name ((stopExperiment name sys envS).sys) env₂).out.isConflict = false
        ∧ (stopExperiment name ((stopExperiment name sys envS).sys) envS₂).out.isConflict = false)) := by
  constructor
  · intro h
    have hs : lockAcquire sys.lock .lockedStarting = .error () := by
      cases hv : sys.lock with
      | free => exact absurd hv h
      | lockedStarting => rfl
      | lockedStopping => rfl
    have hp : lockAcquire sys.lock .lockedStopping = .error () := by
      cases hv : sys.lock with
      | free => exact absurd hv h
      | lockedStarting => rfl
      | lockedStopping => rfl
    constructor
    · simp [startExperiment, hs]
    · simp [stopExperiment, hp]
  · intro h
    have hstart : (startExperiment name sys env).sys.lock = .free := by
      simp only [startExperiment, lockAcquire, h]
      repeat' split
      all_goals rfl
    have hstop : (stopExperiment name sys envS).sys.lock = .free := by
      simp only [stopExperiment, lockAcquire, h]
      repeat' split
      all_goals rfl
    have notConflict : ∀ (s : Sys), s.lock = .free →
        (startExperiment name s env₂).out.isConflict = false
        ∧ (stopExperiment name s envS₂).out.isConflict = false := by
      intro s hf
      constructor
      · simp only [startExperiment, lockAcquire, hf]
        repeat' split
        all_goals rfl
      · simp only [stopExperiment, lockAcquire, hf]
        repeat' split
        all_goals rfl
    exact ⟨(notConflict _ hstart).1, (notConflict _ hstart).2,
           (notConflict _ hstop).1, (notConflict _ hstop).2⟩

/-- Witness for C2 at concrete inputs: a Start against a mid-start lock is a
409 Conflict with empty trace, and after a completed Start the next Stop is
not a Conflict. -/
theorem startStop_conflict_when_locked_witness :
    ({ lock := .lockedStarting, cancels := none, waiters := none : Sys }.lock ≠ .free
      ∧ (startExperiment "exp1"
          { lock := .lockedStarting, cancels := none, waiters := none } envStartOk).tr = [])
    ∧ (sysFree.lock = .free
      ∧ (stopExperiment "exp1" ((startExperiment "exp1" sysFree envStartOk).sys) envStopOk).out.isConflict
          = false) := by
  constructor
  · exact ⟨by decide,
      ((startStop_conflict_when_locked "exp1"
        { lock := .lockedStarting, cancels := none, waiters := none }
        envStartOk envStartOk envStopOk envStopOk).1 (by decide)).1.2.1⟩
  · exact ⟨rfl,
      ((startStop_conflict_when_locked "exp1" sysFree
        envStartOk envStartOk envStopOk envStopOk).2 rfl).2.1⟩

/-! ### C3: lock released on every exit path -/

/-- C3: whenever a Start or Stop call acquires the lock (the lock-table
entry for the name was free), the lock entry is free again after the call
returns, on every exit path — success, domain error, serialization error,
or the nil-pointer panic path (the deferred unlock still runs). -/
theorem lock_free_after_return
    (name : String) (sys : Sys) (env : StartEnv) (envS : StopEnv)
    (h : sys.lock = .free) :
    (startExperiment name sys env).sys.lock = .free
    ∧ (stopExperiment name sys envS).sys.lock = .free := by
  constructor
  · simp only [startExperiment, lockAcquire, h]
    repeat' split
    all_goals rfl
  · simp only [stopExperiment, lockAcquire, h]
    repeat' split
    all_goals rfl

/-- Witness for C3: concrete calls (one failing stop among them) leave the
lock free. -/
theorem lock_free_after_return_witness :
    sysFree.lock = .free
    ∧ (startExperiment "exp1" sysFree envStartOk).sys.lock = .free
    ∧ (stopExperiment "exp1" sysFree envStopFail).sys.lock = .free :=
  ⟨rfl, (lock_free_after_return "exp1" sysFree envStartOk envStopFail rfl).1,
        (lock_free_after_return "exp1" sysFree envStartOk envStopFail rfl).2⟩

/-! ### C9: Stop dereferences `experiment.Get`'s result unchecked -/

/-- C9: on Stop's success path the fetched-experiment error branch is empty,
so the response is built safely only when `experiment.Get` yields a non-nil
pointer; when it fails (nil pointer plus error), the call dereferences the
nil pointer (panic) instead of returning an error outcome. -/
theorem stop_deref_unchecked
    (name : String) (sys : Sys) (env : StopEnv)
    (h : sys.lock = .free) (hstop : env.domainStop = none) :
    (∀ e : Err, env.expPtr = none → env.expErr = some e →
      (stopExperiment name sys env).out = .panicked)
    ∧ (∀ exp : ExpData, env.expPtr = some exp →
        ∀ b : Body, env.marshal exp env.vms = .ok b →
          (stopExperiment name sys env).out = .ok b) := by
  constructor
  · intro e hp _
    simp only [stopExperiment, lockAcquire, h, hstop, hp]
  · intro exp hp b hm
    simp only [stopExperiment, lockAcquire, h, hstop, hp, hm]

/-- Witness for C9: with a failing `experiment.Get` after a successful
domain stop, the concrete Stop call panics. -/
theorem stop_deref_unchecked_witness :
    (sysFree.lock = .free
      ∧ ({ envStopOk with expPtr := none, expErr := some "get failed" } : StopEnv).domainStop = none)
    ∧ (stopExperiment "exp1" sysFree
        { envStopOk with expPtr := none, expErr := some "get failed" }).out = .panicked :=
  ⟨⟨rfl, rfl⟩,
    (stop_deref_unchecked "exp1" sysFree
        { envStopOk with expPtr := none, expErr := some "get failed" } rfl rfl).1
      "get failed" rfl rfl⟩

/-! ### C10: VM-listing failure after a successful start is non-fatal -/

/-- C10: when `vm.List` fails after a successful domain start, Start logs
the error and still returns success: the body is serialized from the fetched
experiment together with the list the failed call returned, the same body is
carried by the `start` broadcast, and no error reaches the caller. -/
theorem start_listVMs_failure_nonfatal
    (name : String) (sys : Sys) (env : StartEnv) (exp : ExpData) (e : Err) (b : Body)
    (h : sys.lock = .free) (hds : env.domainStart = none)
    (hge : env.expErr = none) (hgp : env.expPtr = some exp)
    (hle : env.vmsErr = some e) (hm : env.marshal exp env.vms = .ok b) :
    (startExperiment name sys env).out = .ok b
    ∧ Event.logListErr ∈ (startExperiment name sys env).tr
    ∧ Event.broadcast (.start b) ∈ (startExperiment name sys env).tr := by
  rcases hse : env.schedErr with _ | e2 <;>
    simp [startExperiment, lockAcquire, h, hds, hge, hgp, hle, hse, hm]

/-- Witness for C10: a concrete start whose `vm.List` fails still returns
the marshalled body. -/
theorem start_listVMs_failure_nonfatal_witness :
    ((sysFree.lock = .free
      ∧ ({ envStartOk with vms := [], vmsErr := some "mm down" } : StartEnv).domainStart = none)
      ∧ ({ envStartOk with vms := [], vmsErr := some "mm down" } : StartEnv).vmsErr = some "mm down")
    ∧ (startExperiment "exp1" sysFree
        { envStartOk with vms := [], vmsErr := some "mm down" }).out = .ok "exp1data#0" :=
  ⟨⟨⟨rfl, rfl⟩, rfl⟩,
    (start_listVMs_failure_nonfatal "exp1" sysFree
        { envStartOk with vms := [], vmsErr := some "mm down" }
        "exp1data" "mm down" "exp1data#0" rfl rfl rfl rfl rfl rfl).1⟩

/-- A broadcast occurring inside the poll loop is a progress broadcast. -/
theorem broadcast_mem_pollLoop (cur : ℚ) (l : List (Except Err ℚ)) (m : BMsg)
    (h : Event.broadcast m ∈ pollLoop cur l) : ∃ p, m = BMsg.progress p := by
  rcases mem_pollLoop cur l _ h with h1 | h1 | ⟨p, h1⟩ | h1
  · cases h1
  · cases h1
  · exact ⟨p, by injection h1⟩
  · cases h1

theorem errorStarting_not_mem_pollLoop (cur : ℚ) (l : List (Except Err ℚ)) :
    Event.broadcast .errorStarting ∉ pollLoop cur l := by
  intro h
  obtain ⟨p, hp⟩ := broadcast_mem_pollLoop cur l _ h
  cases hp

theorem startBody_not_mem_pollLoop (cur : ℚ) (l : List (Except Err ℚ)) (b : Body) :
    Event.broadcast (.start b) ∉ pollLoop cur l := by
  intro h
  obtain ⟨p, hp⟩ := broadcast_mem_pollLoop cur l _ h
  cases hp

/-! ### C8: periodic-app scheduling failure is non-fatal -/

/-- C8: when the domain start succeeds but `app.PeriodicallyRunApps` fails,
Start logs the error, unregisters the runner's cancellation handle and the
wait-group entry (both registry keys are removed), and still returns the
serialized body with a `start` broadcast; the scheduling result never
changes Start's outcome. -/
theorem start_sched_failure_nonfatal
    (name : String) (sys : Sys) (env : StartEnv) (e : Err) (exp : ExpData) (b : Body)
    (h : sys.lock = .free) (hds : env.domainStart = none) (hge : env.expErr = none)
    (hgp : env.expPtr = some exp) (hse : env.schedErr = some e)
    (hm : env.marshal exp env.vms = .ok b) :
    (startExperiment name sys env).out = .ok b
    ∧ Event.logSchedErr ∈ (startExperiment name sys env).tr
    ∧ Event.broadcast (.start b) ∈ (startExperiment name sys env).tr
    ∧ env.rCancelId ∉ registeredCancels (startExperiment name sys env).sys
    ∧ (startExperiment name sys env).sys.cancels = none
    ∧ (startExperiment name sys env).sys.waiters = none
    ∧ ∀ se : Option Err,
        (startExperiment name sys { env with schedErr := se }).out
          = (startExperiment name sys env).out := by
  refine ⟨?_, ?_, ?_, ?_, ?_, ?_, ?_⟩
  · rcases hve : env.vmsErr with _ | e2 <;>
      simp [startExperiment, lockAcquire, h, hds, hge, hgp, hse, hve, hm]
  · rcases hve : env.vmsErr with _ | e2 <;>
      simp [startExperiment, lockAcquire, h, hds, hge, hgp, hse, hve, hm]
  · rcases hve : env.vmsErr with _ | e2 <;>
      simp [startExperiment, lockAcquire, h, hds, hge, hgp, hse, hve, hm]
  · rcases hve : env.vmsErr with _ | e2 <;>
      simp [startExperiment, lockAcquire, h, hds, hge, hgp, hse, hve, hm,
            registeredCancels]
  · rcases hve : env.vmsErr with _ | e2 <;>
      simp [startExperiment, lockAcquire, h, hds, hge, hgp, hse, hve, hm]
  · rcases hve : env.vmsErr with _ | e2 <;>
      simp [startExperiment, lockAcquire, h, hds, hge, hgp, hse, hve, hm]
  · intro se
    rcases hve : env.vmsErr with _ | e2 <;> rcases se with _ | e3 <;>
      simp [startExperiment, lockAcquire, h, hds, hge, hgp, hse, hve, hm]

/-- Witness for C8: a concrete start whose periodic-app scheduling fails
still succeeds, with both registry keys absent afterwards. -/
theorem start_sched_failure_nonfatal_witness :
    (sysFree.lock = .free
      ∧ ({ envStartOk with schedErr := some "sched fail" } : StartEnv).schedErr = some "sched fail")
    ∧ (startExperiment "exp1" sysFree
        { envStartOk with schedErr := some "sched fail" }).out = .ok "exp1data#3"
    ∧ (startExperiment "exp1" sysFree
        { envStartOk with schedErr := some "sched fail" }).sys.cancels = none := by
  have h := start_sched_failure_nonfatal "exp1" sysFree
    { envStartOk with schedErr := some "sched fail" }
    "sched fail" "exp1data" "exp1data#3" rfl rfl rfl rfl rfl rfl
  exact ⟨⟨rfl, rfl⟩, h.1, h.2.2.2.2.1⟩

/-! ### C7: domain failure emits the error event and a wrapped 400 error -/

/-- C7: when the domain operation fails, the corresponding call emits
exactly one corresponding error event (`errorStarting` / `errorStopping`)
and no success event, returns a nil body together with the domain error
wrapped with the experiment name and operation context at status 400, and a
failed Start leaves the just-added goroutine cancellation handle
unregistered. -/
theorem domain_failure_error_event
    (name : String) (sys : Sys) (env : StartEnv) (envS : StopEnv) (e e' : Err)
    (h : sys.lock = .free) (hds : env.domainStart = some e)
    (hss : envS.domainStop = some e') :
    (startExperiment name sys env).out =
        .err { inner := e, msg := "unable to start experiment " ++ name, status := 400 }
    ∧ (startExperiment name sys env).tr.count (.broadcast .errorStarting) = 1
    ∧ (∀ b : Body, Event.broadcast (.start b) ∉ (startExperiment name sys env).tr)
    ∧ env.gCancelId ∉ registeredCancels (startExperiment name sys env).sys
    ∧ (stopExperiment name sys envS).out =
        .err { inner := e', msg := "unable to stop experiment " ++ name, status := 400 }
    ∧ (stopExperiment name sys envS).tr.count (.broadcast .errorStopping) = 1
    ∧ (∀ b : Body, Event.broadcast (.stop b) ∉ (stopExperiment name sys envS).tr) := by
  refine ⟨?_, ?_, ?_, ?_, ?_, ?_, ?_⟩
  · simp [startExperiment, lockAcquire, h, hds]
  · simp [startExperiment, lockAcquire, h, hds, List.count_append, List.count_cons,
          List.count_eq_zero.mpr (errorStarting_not_mem_pollLoop 0 env.polls)]
  · intro b
    simp [startExperiment, lockAcquire, h, hds, startBody_not_mem_pollLoop 0 env.polls b]
  · simp [startExperiment, lockAcquire, h, hds, registeredCancels]
  · rcases hc : sys.cancels with _ | hs <;> rcases hw : sys.waiters with _ | n <;>
      simp [stopExperiment, lockAcquire, h, hss, hc, hw]
  · rcases hc : sys.cancels with _ | hs <;> rcases hw : sys.waiters with _ | n <;>
      simp [stopExperiment, lockAcquire, h, hss, hc, hw, List.count_append,
            List.count_cons, List.count_eq_zero, List.mem_map]
  · intro b
    rcases hc : sys.cancels with _ | hs <;> rcases hw : sys.waiters with _ | n <;>
      simp [stopExperiment, lockAcquire, h, hss, hc, hw]

/-- Witness for C7: concrete failing domain start and stop produce the
wrapped 400 errors and single error events. -/
theorem domain_failure_error_event_witness :
    (sysFree.lock = .free
      ∧ envStartFail.domainStart = some "already running"
      ∧ envStopFail.domainStop = some "teardown failed")
    ∧ (startExperiment "exp1" sysFree envStartFail).out =
        .err { inner := "already running",
               msg := "unable to start experiment exp1", status := 400 }
    ∧ (stopExperiment "exp1" sysFree envStopFail).tr.count (.broadcast .errorStopping) = 1 := by
  have h := domain_failure_error_event "exp1" sysFree envStartFail envStopFail
    "already running" "teardown failed" rfl rfl rfl
  exact ⟨⟨rfl, rfl, rfl⟩, h.1, h.2.2.2.2.2.1⟩

theorem progressValues_append (a b : List Event) :
    progressValues (a ++ b) = progressValues a ++ progressValues b := by
  simp [progressValues, List.filterMap_append]

/-- Shape of a start trace once the lock is acquired: the `starting`
broadcast and the domain-start invocation, the poll-loop segment, then a
tail of teardown/terminal events that contains no poll, no sleep, no
progress broadcast, and no `starting` broadcast. -/
theorem startExperiment_tr_shape
    (name : String) (sys : Sys) (env : StartEnv) (h : sys.lock = .free) :
    ∃ tail, (startExperiment name sys env).tr
        = Event.broadcast .starting :: Event.domainStart ::
            (pollLoop 0 env.polls ++ tail)
      ∧ ∀ e ∈ tail,
          e = .unlock ∨ e = .cancelCalled env.gCancelId
          ∨ e = .cancelCalled env.rCancelId ∨ e = .clearCancelers
          ∨ e = .clearWaiters ∨ e = .logSchedErr ∨ e = .logListErr
          ∨ e = .broadcast .errorStarting ∨ ∃ b, e = .broadcast (.start b) := by
  rcases hds : env.domainStart with _ | e
  case some =>
    refine ⟨[.cancelCalled env.gCancelId, .clearCancelers,
             .broadcast .errorStarting, .unlock],
      by simp [startExperiment, lockAcquire, h, hds], ?_⟩
    intro e he
    simp only [List.mem_cons, List.not_mem_nil, or_false] at he
    rcases he with rfl | rfl | rfl | rfl <;> simp
  case none =>
    rcases hge : env.expErr with _ | e2
    case some =>
      refine ⟨[.broadcast .errorStarting, .unlock],
        by simp [startExperiment, lockAcquire, h, hds, hge], ?_⟩
      intro e he
      simp only [List.mem_cons, List.not_mem_nil, or_false] at he
      rcases he with rfl | rfl <;> simp
    case none =>
      rcases hgp : env.expPtr with _ | exp
      case none =>
        refine ⟨(match env.schedErr with
                  | some _ => [.cancelCalled env.rCancelId, .clearCancelers,
                               .clearWaiters, .logSchedErr]
                  | none => [])
                ++ (match env.vmsErr with
                    | some _ => [Event.logListErr]
                    | none => [])
                ++ [.unlock],
          by rcases hse : env.schedErr with _ | e3 <;> rcases hve : env.vmsErr with _ | e4 <;>
               simp [startExperiment, lockAcquire, h, hds, hge, hgp, hse, hve], ?_⟩
        intro e he
        rcases hse : env.schedErr with _ | e3 <;> rcases hve : env.vmsErr with _ | e4 <;>
          rw [hse, hve] at he <;>
          simp only [List.mem_append, List.mem_cons, List.not_mem_nil, or_false,
            false_or, List.nil_append] at he <;>
          (try casesm* _ ∨ _) <;> subst_vars <;> simp
      case some =>
        rcases hm : env.marshal exp env.vms with e5 | b
        case error =>
          refine ⟨(match env.schedErr with
                    | some _ => [.cancelCalled env.rCancelId, .clearCancelers,
                                 .clearWaiters, .logSchedErr]
                    | none => [])
                  ++ (match env.vmsErr with
                      | some _ => [Event.logListErr]
                      | none => [])
                  ++ [.unlock],
            by rcases hse : env.schedErr with _ | e3 <;> rcases hve : env.vmsErr with _ | e4 <;>
                 simp [startExperiment, lockAcquire, h, hds, hge, hgp, hse, hve, hm], ?_⟩
          intro e he
          rcases hse : env.schedErr with _ | e3 <;> rcases hve : env.vmsErr with _ | e4 <;>
            rw [hse, hve] at he <;>
            simp only [List.mem_append, List.mem_cons, List.not_mem_nil, or_false,
              false_or, List.nil_append] at he <;>
            (try casesm* _ ∨ _) <;> subst_vars <;> simp
        case ok =>
          refine ⟨(match env.schedErr with
                    | some _ => [.cancelCalled env.rCancelId, .clearCancelers,
                                 .clearWaiters, .logSchedErr]
                    | none => [])
                  ++ (match env.vmsErr with
                      | some _ => [Event.logListErr]
                      | none => [])
                  ++ [.broadcast (.start b), .unlock],
            by rcases hse : env.schedErr with _ | e3 <;> rcases hve : env.vmsErr with _ | e4 <;>
                 simp [startExperiment, lockAcquire, h, hds, hge, hgp, hse, hve, hm], ?_⟩
          intro e he
          rcases hse : env.schedErr with _ | e3 <;> rcases hve : env.vmsErr with _ | e4 <;>
            rw [hse, hve] at he <;>
            simp only [List.mem_append, List.mem_cons, List.not_mem_nil, or_false,
              false_or, List.nil_append] at he <;>
            (try casesm* _ ∨ _) <;> subst_vars <;> simp

/-- The progress values a start call broadcasts are exactly the running
maximum of the successful probe readings, seeded at 0. -/
theorem progressValues_start
    (name : String) (sys : Sys) (env : StartEnv) (h : sys.lock = .free) :
    progressValues (startExperiment name sys env).tr
      = runMax 0 (pollSuccesses env.polls) := by
  obtain ⟨tail, htr, hmem⟩ := startExperiment_tr_shape name sys env h
  have htail : progressValues tail = [] := by
    rw [progressValues, List.filterMap_eq_nil_iff]
    intro e he
    rcases hmem e he with rfl | rfl | rfl | rfl | rfl | rfl | rfl | rfl | ⟨b, rfl⟩ <;> rfl
  calc progressValues (startExperiment name sys env).tr
      = progressValues (pollLoop 0 env.polls ++ tail) := by rw [htr]; exact rfl
    _ = progressValues (pollLoop 0 env.polls) ++ progressValues tail :=
        progressValues_append _ _
    _ = runMax 0 (pollSuccesses env.polls) := by
        rw [progressValues_pollLoop, htail, List.append_nil]

/-- C4: within one Start call the emitted progress fractions are
non-decreasing; each emitted value is the maximum of 0 and all successful
probe readings observed so far (a lower transient reading never regresses
it); and when the probe's readings lie in [0,1], so does every emitted
value. -/
theorem progress_monotone_bounded
    (name : String) (sys : Sys) (env : StartEnv)
    (hb : ∀ p ∈ pollSuccesses env.polls, 0 ≤ p ∧ p ≤ 1) :
    (progressValues (startExperiment name sys env).tr).Sorted (· ≤ ·)
    ∧ (∀ v ∈ progressValues (startExperiment name sys env).tr, 0 ≤ v ∧ v ≤ 1)
    ∧ ∀ i : Nat, ∀ v : ℚ,
        (progressValues (startExperiment name sys env).tr).get? i = some v →
          v = ((pollSuccesses env.polls).take (i + 1)).foldl max 0 := by
  rcases hl : sys.lock with _ | _ | _
  case free =>
    rw [progressValues_start name sys env hl]
    exact ⟨runMax_sorted 0 _,
      runMax_bounds 0 _ 0 1 ⟨le_refl 0, zero_le_one⟩ hb,
      fun i v hget => runMax_get? 0 _ i v hget⟩
  case lockedStarting =>
    simp [startExperiment, lockAcquire, hl, progressValues]
  case lockedStopping =>
    simp [startExperiment, lockAcquire, hl, progressValues]

theorem envStartOk_polls_bounded :
    ∀ p ∈ pollSuccesses envStartOk.polls, 0 ≤ p ∧ p ≤ 1 := by
  intro p hp
  rw [show pollSuccesses envStartOk.polls = [3/10, 7/10] from rfl] at hp
  simp only [List.mem_cons, List.not_mem_nil, or_false] at hp
  rcases hp with rfl | rfl <;> norm_num

/-- Witness for C4: the concrete probe sequence 3/10, failure, 7/10 is in
bounds and yields the sorted broadcast sequence [3/10, 7/10]. -/
theorem progress_monotone_bounded_witness :
    (∀ p ∈ pollSuccesses envStartOk.polls, 0 ≤ p ∧ p ≤ 1)
    ∧ (progressValues (startExperiment "exp1" sysFree envStartOk).tr).Sorted (· ≤ ·)
    ∧ (∀ v ∈ progressValues (startExperiment "exp1" sysFree envStartOk).tr,
        0 ≤ v ∧ v ≤ 1) :=
  ⟨envStartOk_polls_bounded,
   (progress_monotone_bounded "exp1" sysFree envStartOk envStartOk_polls_bounded).1,
   (progress_monotone_bounded "exp1" sysFree envStartOk envStartOk_polls_bounded).2.1⟩

/-- Phase projection of the poll loop: only progress broadcasts survive. -/
theorem startPhase_pollLoop (cur : ℚ) (l : List (Except Err ℚ)) :
    ∀ x ∈ (pollLoop cur l).filterMap startPhase, x = 1 := by
  intro x hx
  rw [List.mem_filterMap] at hx
  obtain ⟨e, he, hpe⟩ := hx
  rcases mem_pollLoop cur l e he with rfl | rfl | ⟨p, rfl⟩ | rfl <;>
    simp [startPhase] at hpe
  omega

/-- C6: within one Start call that acquired the lock, the phase projection
of the broadcast stream is one `starting` event, then only `progress`
events, then at most one terminal (`start`/`errorStarting`) event and
nothing further: `starting` strictly precedes every `progress` broadcast,
every `progress` broadcast strictly precedes the terminal event, and no
`progress` broadcast follows the terminal event. -/
theorem start_broadcast_ordering
    (name : String) (sys : Sys) (env : StartEnv) (h : sys.lock = .free) :
    ∃ ps t, (startExperiment name sys env).tr.filterMap startPhase = 0 :: (ps ++ t)
      ∧ (∀ x ∈ ps, x = 1) ∧ (t = [] ∨ t = [2]) := by
  rcases hds : env.domainStart with _ | e
  case some =>
    exact ⟨(pollLoop 0 env.polls).filterMap startPhase, [2],
      by simp [startExperiment, lockAcquire, h, hds, List.filterMap_append, startPhase],
      startPhase_pollLoop 0 env.polls, Or.inr rfl⟩
  case none =>
    rcases hge : env.expErr with _ | e2
    case some =>
      exact ⟨(pollLoop 0 env.polls).filterMap startPhase, [2],
        by simp [startExperiment, lockAcquire, h, hds, hge,
             List.filterMap_append, startPhase],
        startPhase_pollLoop 0 env.polls, Or.inr rfl⟩
    case none =>
      rcases hgp : env.expPtr with _ | exp
      case none =>
        refine ⟨(pollLoop 0 env.polls).filterMap startPhase, [], ?_,
          startPhase_pollLoop 0 env.polls, Or.inl rfl⟩
        rcases hse : env.schedErr with _ | e3 <;> rcases hve : env.vmsErr with _ | e4 <;>
          simp [startExperiment, lockAcquire, h, hds, hge, hgp, hse, hve,
            List.filterMap_append, startPhase]
      case some =>
        rcases hm : env.marshal exp env.vms with e5 | b
        case error =>
          refine ⟨(pollLoop 0 env.polls).filterMap startPhase, [], ?_,
            startPhase_pollLoop 0 env.polls, Or.inl rfl⟩
          rcases hse : env.schedErr with _ | e3 <;> rcases hve : env.vmsErr with _ | e4 <;>
            simp [startExperiment, lockAcquire, h, hds, hge, hgp, hse, hve, hm,
              List.filterMap_append, startPhase]
        case ok =>
          refine ⟨(pollLoop 0 env.polls).filterMap startPhase, [2], ?_,
            startPhase_pollLoop 0 env.polls, Or.inr rfl⟩
          rcases hse : env.schedErr with _ | e3 <;> rcases hve : env.vmsErr with _ | e4 <;>
            simp [startExperiment, lockAcquire, h, hds, hge, hgp, hse, hve, hm,
              List.filterMap_append, startPhase]

/-- Witness for C6 at a concrete successful start. -/
theorem start_broadcast_ordering_witness :
    sysFree.lock = .free
    ∧ ∃ ps t, (startExperiment "exp1" sysFree envStartOk).tr.filterMap startPhase
          = 0 :: (ps ++ t)
        ∧ (∀ x ∈ ps, x = 1) ∧ (t = [] ∨ t = [2]) :=
  ⟨rfl, start_broadcast_ordering "exp1" sysFree envStartOk rfl⟩

/-! ### Poll cadence (C5) -/

/-- A list with no poll event contributes no inter-poll gap. -/
theorem ipsGo_no_poll (l : List Event) (b : Bool) (a : Nat)
    (h : ∀ e ∈ l, e ≠ Event.poll) : ipsGo l b a = [] := by
  induction l generalizing b a with
  | nil => rfl
  | cons e r ih =>
      have hr : ∀ e' ∈ r, e' ≠ Event.poll := fun e' h' => h e' (List.mem_cons_of_mem e h')
      cases e with
      | poll => exact absurd rfl (h .poll (List.mem_cons_self _ _))
      | sleep n => cases b <;> simp [ipsGo] <;> exact ih _ _ hr
      | broadcast m => simpa [ipsGo] using ih b a hr
      | cancelCalled c => simpa [ipsGo] using ih b a hr
      | awaitDrain => simpa [ipsGo] using ih b a hr
      | clearCancelers => simpa [ipsGo] using ih b a hr
      | clearWaiters => simpa [ipsGo] using ih b a hr
      | domainStart => simpa [ipsGo] using ih b a hr
      | domainStop => simpa [ipsGo] using ih b a hr
      | logPollErr => simpa [ipsGo] using ih b a hr
      | logListErr => simpa [ipsGo] using ih b a hr
      | logSchedErr => simpa [ipsGo] using ih b a hr
      | unlock => simpa [ipsGo] using ih b a hr

theorem expGaps_cons (x : Except Err ℚ) (r : List (Except Err ℚ)) :
    expGaps (x :: r)
      = if r = [] then []
        else (match x with | .ok _ => 2 | .error _ => 0) :: expGaps r := by
  cases r with
  | nil => simp [expGaps]
  | cons y s => cases x <;> simp [expGaps]

theorem ipsGo_pollLoop_true (cur : ℚ) (polls : List (Except Err ℚ))
    (post : List Event) (hpost : ∀ e ∈ post, e ≠ Event.poll) (acc : Nat) :
    ipsGo (pollLoop cur polls ++ post) true acc
      = if polls = [] then [] else acc :: expGaps polls := by
  induction polls generalizing cur acc with
  | nil => simpa [pollLoop] using ipsGo_no_poll post true acc hpost
  | cons x r ih =>
      cases x with
      | error e =>
          rw [pollLoop]
          simp only [List.cons_append, ipsGo, List.append_eq, Nat.zero_add]
          rw [ih cur 0, expGaps_cons]
          simp
      | ok p =>
          rw [pollLoop]
          simp only [List.cons_append, ipsGo, List.append_eq, Nat.zero_add]
          rw [ih _ 2, expGaps_cons]
          simp

theorem ipsGo_pollLoop_false (cur : ℚ) (polls : List (Except Err ℚ))
    (post : List Event) (hpost : ∀ e ∈ post, e ≠ Event.poll) (acc : Nat) :
    ipsGo (pollLoop cur polls ++ post) false acc = expGaps polls := by
  cases polls with
  | nil => simpa [pollLoop] using ipsGo_no_poll post false acc hpost
  | cons x r =>
      cases x with
      | error e =>
          rw [pollLoop]
          simp only [List.cons_append, ipsGo, List.append_eq, Nat.zero_add]
          rw [ipsGo_pollLoop_true cur r post hpost 0, expGaps_cons]
      | ok p =>
          rw [pollLoop]
          simp only [List.cons_append, ipsGo, List.append_eq, Nat.zero_add]
          rw [ipsGo_pollLoop_true _ r post hpost 2, expGaps_cons]

/-- Prefix events that are neither polls nor sleeps are skipped before the
first poll. -/
theorem ipsGo_cons_skip (e : Event) (l : List Event) (a : Nat)
    (h1 : e ≠ Event.poll) (h2 : ∀ n, e ≠ Event.sleep n) :
    ipsGo (e :: l) false a = ipsGo l false a := by
  cases e with
  | poll => exact absurd rfl h1
  | sleep n => exact absurd rfl (h2 n)
  | broadcast m => rfl
  | cancelCalled c => rfl
  | awaitDrain => rfl
  | clearCancelers => rfl
  | clearWaiters => rfl
  | domainStart => rfl
  | domainStop => rfl
  | logPollErr => rfl
  | logListErr => rfl
  | logSchedErr => rfl
  | unlock => rfl

/-- The inter-poll gaps of a whole start-call trace are exactly `expGaps`:
2 time units after a successful probe, 0 after a failed one. -/
theorem interPollSleeps_start
    (name : String) (sys : Sys) (env : StartEnv) (h : sys.lock = .free) :
    interPollSleeps (startExperiment name sys env).tr = expGaps env.polls := by
  obtain ⟨tail, htr, hmem⟩ := startExperiment_tr_shape name sys env h
  have htail : ∀ e ∈ tail, e ≠ Event.poll := by
    intro e he
    rcases hmem e he with rfl | rfl | rfl | rfl | rfl | rfl | rfl | rfl | ⟨b, rfl⟩ <;>
      intro hc <;> cases hc
  rw [interPollSleeps, htr, ipsGo_cons_skip _ _ _ (by intro hc; cases hc) (by intro n hc; cases hc),
      ipsGo_cons_skip _ _ _ (by intro hc; cases hc) (by intro n hc; cases hc),
      ipsGo_pollLoop_false 0 env.polls tail htail 0]

/-- Number of failed probe readings in a poll-result sequence. -/
def errCount (polls : List (Except Err ℚ)) : Nat :=
  polls.countP fun r =>
    match r with
    | .error _ => true
    | .ok _ => false

theorem count_poll_pollLoop (cur : ℚ) (l : List (Except Err ℚ)) :
    (pollLoop cur l).count Event.poll = l.length := by
  induction l generalizing cur with
  | nil => rfl
  | cons x r ih => cases x <;> simp [pollLoop, List.count_cons, ih]

theorem count_logPollErr_pollLoop (cur : ℚ) (l : List (Except Err ℚ)) :
    (pollLoop cur l).count Event.logPollErr = errCount l := by
  induction l generalizing cur with
  | nil => rfl
  | cons x r ih => cases x <;> simp [pollLoop, List.count_cons, ih, errCount, List.countP_cons]

/-- The whole start trace contains one poll event per observed probe result. -/
theorem count_poll_start
    (name : String) (sys : Sys) (env : StartEnv) (h : sys.lock = .free) :
    (startExperiment name sys env).tr.count Event.poll = env.polls.length := by
  obtain ⟨tail, htr, hmem⟩ := startExperiment_tr_shape name sys env h
  have htail : (tail.count Event.poll) = 0 := by
    rw [List.count_eq_zero]
    intro hc
    rcases hmem _ hc with h1 | h1 | h1 | h1 | h1 | h1 | h1 | h1 | ⟨b, h1⟩ <;> cases h1
  rw [htr]
  simp [List.count_append, List.count_cons, count_poll_pollLoop, htail]

/-- The whole start trace logs one progress-poll error per failed probe. -/
theorem count_logPollErr_start
    (name : String) (sys : Sys) (env : StartEnv) (h : sys.lock = .free) :
    (startExperiment name sys env).tr.count Event.logPollErr = errCount env.polls := by
  obtain ⟨tail, htr, hmem⟩ := startExperiment_tr_shape name sys env h
  have htail : (tail.count Event.logPollErr) = 0 := by
    rw [List.count_eq_zero]
    intro hc
    rcases hmem _ hc with h1 | h1 | h1 | h1 | h1 | h1 | h1 | h1 | ⟨b, h1⟩ <;> cases h1
  rw [htr]
  simp [List.count_append, List.count_cons, count_logPollErr_pollLoop, htail]

/-- A start in which the first probe poll fails and the second succeeds. -/
def envC5 : StartEnv := { envStartOk with polls := [.error "probe down", .ok 1] }

/-- C5 counterexample: the polls of a Start call are not issued at a fixed
cadence of one poll every 2 time units — after a failed poll the loop
`continue`s without sleeping, so the next poll follows after 0 time units. -/
theorem poll_cadence_counterexample :
    ¬ ∀ g ∈ interPollSleeps (startExperiment "exp1" sysFree envC5).tr, g = 2 := by
  decide

/-- C5 (amended): one probe poll per loop iteration while the terminal
result is unavailable; a successful poll is followed by a 2-time-unit sleep
before the next poll, while a failed poll is logged and retried immediately
(0 time units, no sleep, no broadcast for that iteration); and the poll
results never influence the outcome of the Start call (a probe failure does
not abort the start). -/
theorem poll_cadence_amended
    (name : String) (sys : Sys) (env : StartEnv) (h : sys.lock = .free) :
    interPollSleeps (startExperiment name sys env).tr = expGaps env.polls
    ∧ (startExperiment name sys env).tr.count Event.poll = env.polls.length
    ∧ (startExperiment name sys env).tr.count Event.logPollErr = errCount env.polls
    ∧ ∀ ps : List (Except Err ℚ),
        (startExperiment name sys { env with polls := ps }).out
          = (startExperiment name sys env).out := by
  refine ⟨interPollSleeps_start name sys env h, count_poll_start name sys env h,
    count_logPollErr_start name sys env h, ?_⟩
  intro ps
  rcases hds : env.domainStart with _ | e <;>
    rcases hge : env.expErr with _ | e2 <;>
    rcases hgp : env.expPtr with _ | exp <;>
    rcases hse : env.schedErr with _ | e3 <;>
    rcases hve : env.vmsErr with _ | e4 <;>
    simp [startExperiment, lockAcquire, h, hds, hge, hgp, hse, hve] <;>
    try (rcases env.marshal exp env.vms with e5 | b <;> simp)

/-- Witness for C5's amended theorem at the counterexample input: the gaps
are [0] (failed first poll), with 2 polls and 1 poll-error log. -/
theorem poll_cadence_amended_witness :
    sysFree.lock = .free
    ∧ interPollSleeps (startExperiment "exp1" sysFree envC5).tr = expGaps envC5.polls
    ∧ (startExperiment "exp1" sysFree envC5).tr.count Event.poll = envC5.polls.length
    ∧ (startExperiment "exp1" sysFree envC5).tr.count Event.logPollErr = errCount envC5.polls :=
  ⟨rfl, (poll_cadence_amended "exp1" sysFree envC5 rfl).1,
   (poll_cadence_amended "exp1" sysFree envC5 rfl).2.1,
   (poll_cadence_amended "exp1" sysFree envC5 rfl).2.2.1⟩

/-! ### C1: drain before domain stop -/

/-- The successful start of C1's scenario, with no polls observed. -/
def envStartQuick : StartEnv := { envStartOk with polls := [] }

/-- A duplicate start of an already-running experiment: the domain start
fails; the worker goroutine's fresh cancel handle gets id 8. -/
def envDupStart : StartEnv :=
  { envStartOk with
    domainStart := some "already running", polls := [],
    gCancelId := 8, rCancelId := 9 }

/-- C1 (code bug): after a successful Start (handles 3 and 5 registered,
wait group tracking one task), a failed duplicate Start wipes the whole
`cancelers[name]` entry while `waiters[name]` survives; the next Stop then
skips `wg.Wait()` entirely (the drain guard is nested under the
`cancelers[name]` presence check) and invokes the domain stop with the
completion tracker still at 1 — the registered background task is never
awaited, contradicting the drain-before-domain-stop invariant. -/
theorem stop_drain_skipped_after_failed_duplicate_start :
    (startExperiment "exp1" sysFree envStartQuick).sys = sysRunning
    ∧ (startExperiment "exp1" sysRunning envDupStart).sys
        = { lock := .free, cancels := none, waiters := some 1 }
    ∧ Event.domainStop ∈
        (stopExperiment "exp1" { lock := .free, cancels := none, waiters := some 1 }
          envStopOk).tr
    ∧ Event.awaitDrain ∉
        (stopExperiment "exp1" { lock := .free, cancels := none, waiters := some 1 }
          envStopOk).tr
    ∧ (∀ hdl : Nat, Event.cancelCalled hdl ∉
        (stopExperiment "exp1" { lock := .free, cancels := none, waiters := some 1 }
          envStopOk).tr) := by
  refine ⟨by decide, by decide, by decide, by decide, ?_⟩
  intro hdl hc
  rw [show (stopExperiment "exp1" { lock := .free, cancels := none, waiters := some 1 }
        envStopOk).tr
      = [.broadcast .stopping, .clearCancelers, .clearWaiters, .domainStop,
         .broadcast (.stop "exp1data#1"), .unlock] from by decide] at hc
  simp at hc

/-- Teardown ordering on the main path of Stop: within one lock-acquiring
Stop call, every cancellation-handle invocation precedes the wait-group
drain, the drain precedes the removal of the registry entries, and the
removal precedes the domain stop call; every handle registered for the name
is invoked, and whenever both registry keys are present the drain occurs.
(The drain can be skipped only when `cancelers[name]` is absent; see the C1
analysis.) -/
theorem filterMap_stopPhase_cancels (hs : List Nat) :
    (hs.map Event.cancelCalled).filterMap stopPhase = hs.map (fun _ => 0) := by
  induction hs with
  | nil => rfl
  | cons c r ih => simpa [stopPhase] using ih

theorem filterMap_stopPhase_cancels_comp (hs : List Nat) :
    hs.filterMap (stopPhase ∘ Event.cancelCalled) = hs.map (fun _ => 0) := by
  induction hs with
  | nil => rfl
  | cons c r ih => simpa [stopPhase] using ih

theorem sorted_zeros_append (hs : List Nat) (l : List Nat)
    (hl : l.Sorted (· ≤ ·)) : ((hs.map fun _ => 0) ++ l).Sorted (· ≤ ·) := by
  induction hs with
  | nil => simpa using hl
  | cons c r ih =>
      rw [List.map_cons, List.cons_append, List.sorted_cons]
      exact ⟨fun b _ => Nat.zero_le b, ih⟩

theorem sorted_replicate_zero_append (n : Nat) (l : List Nat)
    (hl : l.Sorted (· ≤ ·)) : (List.replicate n 0 ++ l).Sorted (· ≤ ·) := by
  induction n with
  | zero => simpa using hl
  | succ k ih =>
      rw [List.replicate_succ, List.cons_append, List.sorted_cons]
      exact ⟨fun b _ => Nat.zero_le b, ih⟩

theorem stop_teardown_order
    (name : String) (sys : Sys) (env : StopEnv) (h : sys.lock = .free) :
    ((stopExperiment name sys env).tr.filterMap stopPhase).Sorted (· ≤ ·)
    ∧ (∀ c ∈ registeredCancels sys,
        Event.cancelCalled c ∈ (stopExperiment name sys env).tr)
    ∧ (sys.cancels.isSome → sys.waiters.isSome →
        Event.awaitDrain ∈ (stopExperiment name sys env).tr)
    ∧ Event.domainStop ∈ (stopExperiment name sys env).tr := by
  refine ⟨?_, ?_, ?_, ?_⟩
  · rcases hc : sys.cancels with _ | hs <;> rcases hw : sys.waiters with _ | n <;>
      rcases hds : env.domainStop with _ | e <;>
      rcases hgp : env.expPtr with _ | exp <;>
      first
      | (simp [stopExperiment, lockAcquire, h, hc, hw, hds, hgp,
            List.filterMap_append, stopPhase, filterMap_stopPhase_cancels,
            filterMap_stopPhase_cancels_comp] <;>
          first
          | (apply sorted_zeros_append; decide)
          | (apply sorted_replicate_zero_append; decide)
          | decide)
      | (rcases hm : env.marshal exp env.vms with e5 | b <;>
          simp [stopExperiment, lockAcquire, h, hc, hw, hds, hgp, hm,
            List.filterMap_append, stopPhase, filterMap_stopPhase_cancels,
            filterMap_stopPhase_cancels_comp] <;>
          first
          | (apply sorted_zeros_append; decide)
          | (apply sorted_replicate_zero_append; decide)
          | decide)
  · intro c hcmem
    rcases hc : sys.cancels with _ | hs
    · simp [registeredCancels, hc] at hcmem
    · have hcm : c ∈ hs := by simpa [registeredCancels, hc] using hcmem
      rcases hw : sys.waiters with _ | n <;> rcases hds : env.domainStop with _ | e <;>
        rcases hgp : env.expPtr with _ | exp <;>
        first
        | (simp [stopExperiment, lockAcquire, h, hc, hw, hds, hgp, hcm]; done)
        | (rcases hm : env.marshal exp env.vms with e5 | b <;>
            simp [stopExperiment, lockAcquire, h, hc, hw, hds, hgp, hm, hcm])
  · intro h1 h2
    rcases hc : sys.cancels with _ | hs
    · rw [hc] at h1; cases h1
    rcases hw : sys.waiters with _ | n
    · rw [hw] at h2; cases h2
    rcases hds : env.domainStop with _ | e <;>
      rcases hgp : env.expPtr with _ | exp <;>
      first
      | (simp [stopExperiment, lockAcquire, h, hc, hw, hds, hgp]; done)
      | (rcases hm : env.marshal exp env.vms with e5 | b <;>
          simp [stopExperiment, lockAcquire, h, hc, hw, hds, hgp, hm])
  · rcases hc : sys.cancels with _ | hs <;> rcases hw : sys.waiters with _ | n <;>
      rcases hds : env.domainStop with _ | e <;>
      rcases hgp : env.expPtr with _ | exp <;>
      first
      | (simp [stopExperiment, lockAcquire, h, hc, hw, hds, hgp]; done)
      | (rcases hm : env.marshal exp env.vms with e5 | b <;>
          simp [stopExperiment, lockAcquire, h, hc, hw, hds, hgp, hm])

end Phenix
